import Mathlib

/-!
# Verification of db-connect-checker against its specification

A shallow embedding of the Go sources of `TAPCLAP/db-connect-checker`:

* `pkg/types`            — the `MysqlConfig` target descriptor.
* `pkg/mysqlcheck`       — `CheckConnections` (fan-out coordinator with a
  per-target bounded retry loop) and the message it returns on exhaustion.
  The network effect of `CheckConnection` is abstracted as a function
  `probe : Int → Option String` giving, for each 1-based attempt number,
  `none` on success or `some reason` on failure.  Goroutine completion
  order is nondeterministic, so the buffered channel's arrival order is
  modelled as an arbitrary permutation of the per-target results.
* `pkg/metrics`          — `MultiMySQLExporter`: the `performChecks`
  cycle, `Start`, and `Collect`, modelled as event traces over the
  `sync.RWMutex` discipline of the source, with the two `GaugeVec`s
  modelled as one association map keyed by the (host, port, database)
  label triple and valued by the probing cycle that produced the entry.
* `pkg/util`             — `mysqlTLSConfig`, plus the external TLS
  library's documented verification behaviour needed to state what the
  produced configuration verifies.
-/

/-- `pkg/types.MysqlConfig`: one target descriptor (the `*tls.Config`
pointer field is modelled separately, see `TLSConfig` below). -/
structure MysqlConfig where
  name : String
  user : String
  pass : String
  host : String
  port : String
  tls : Bool
deriving Repr, DecidableEq

/-- Observable trace of the per-target retry loop in `CheckConnections`
(src/unnamed/part_000, lines 20-32): the value of the loop variable `i`
when the loop exits, the number of `CheckConnection` calls performed, and
the list of sleep durations (in seconds) in the order they happened. -/
structure RunnerTrace where
  finalI : Int
  calls : Nat
  sleeps : List Int
deriving Repr, DecidableEq

/-- The loop `for i = 1; i <= tries; i += 1 { ... }` of `CheckConnections`:
each iteration computes `sleepS := 3*i + 1`, calls `CheckConnection`; on
failure it sleeps `sleepS` seconds and continues, on success it breaks.
`fuel` bounds the recursion; `runWithRetry` supplies enough fuel for the
loop to run to its natural exit. -/
def loopFrom (probe : Int → Option String) (tries : Int) : Int → Nat → RunnerTrace
  | i, 0 => ⟨i, 0, []⟩
  | i, fuel + 1 =>
    if i ≤ tries then
      match probe i with
      | some _ =>
        let r := loopFrom probe tries (i + 1) fuel
        ⟨r.finalI, r.calls + 1, (3 * i + 1) :: r.sleeps⟩
      | none => ⟨i, 1, []⟩
    else ⟨i, 0, []⟩

/-- The whole retry loop of one goroutine of `CheckConnections`, started
at `i = 1` with enough fuel for all `tries` iterations plus the final
bound check. -/
def runWithRetry (probe : Int → Option String) (tries : Int) : RunnerTrace :=
  loopFrom probe tries 1 (tries.toNat + 1)

/-- The error built at src/unnamed/part_000 line 35:
`fmt.Errorf("[%s:%s/%s] connection attempts have failed", cfg.Host, cfg.Name, cfg.Port)`.
Note the argument order of the source: host, then name, then port. -/
def failMsg (cfg : MysqlConfig) : String :=
  "[" ++ cfg.host ++ ":" ++ cfg.name ++ "/" ++ cfg.port ++ "] connection attempts have failed"

/-- What one goroutine of `CheckConnections` sends on `errChan`
(lines 34-38): the exhaustion error iff the loop ran out of tries
(`i == tries+1`), otherwise `nil`. -/
def runnerSend (cfg : MysqlConfig) (probe : Int → Option String) (tries : Int) : Option String :=
  if (runWithRetry probe tries).finalI = tries + 1 then some (failMsg cfg) else none

/-- The coordinator's read loop (lines 42-47):
`for range config { if err := <-errChan; err != nil { return err } }; return nil`.
Given the channel's arrival order, returns the number of channel reads
performed and the value returned by `CheckConnections`. -/
def coordinatorReads : List (Option String) → Nat × Option String
  | [] => (0, none)
  | some e :: _ => (1, some e)
  | none :: rest =>
    let p := coordinatorReads rest
    (p.1 + 1, p.2)

/-- The list of values the launched goroutines send on `errChan`, one per
config, in config order.  Each entry is a function of that target's own
probe behaviour only. -/
def launchRunners (cfgs : List MysqlConfig) (probes : MysqlConfig → Int → Option String)
    (tries : Int) : List (Option String) :=
  cfgs.map (fun cfg => runnerSend cfg (probes cfg) tries)

/-- Total number of `CheckConnection` calls performed across all launched
goroutines. -/
def totalProbeCalls (cfgs : List MysqlConfig) (probes : MysqlConfig → Int → Option String)
    (tries : Int) : Nat :=
  (cfgs.map (fun cfg => (runWithRetry (probes cfg) tries).calls)).sum

/-- `arrival` is a possible order in which the goroutines' sends are read
from the buffered channel: any permutation of the sent values (the buffer
has capacity `len(config)`, so sends never block and any completion order
is possible). -/
def ArrivalOf (cfgs : List MysqlConfig) (probes : MysqlConfig → Int → Option String)
    (tries : Int) (arrival : List (Option String)) : Prop :=
  List.Perm arrival (launchRunners cfgs probes tries)

/-- The value `CheckConnections` returns, given the channel arrival order. -/
def CheckConnections (arrival : List (Option String)) : Option String :=
  (coordinatorReads arrival).2

/-- How many channel reads the coordinator performs before returning. -/
def channelReads (arrival : List (Option String)) : Nat :=
  (coordinatorReads arrival).1

/-- `listStarts hay needle`: `needle` is a leading segment of `hay`. -/
def listStarts : List Char → List Char → Bool
  | _, [] => true
  | [], _ :: _ => false
  | a :: as, b :: bs => decide (a = b) && listStarts as bs

/-- `listHasSeg hay needle`: `needle` occurs contiguously inside `hay`. -/
def listHasSeg : List Char → List Char → Bool
  | [], needle => needle.isEmpty
  | a :: t, needle => listStarts (a :: t) needle || listHasSeg t needle

/-- Substring test used to state whether an error message carries a
failure reason. -/
def msgContains (msg sub : String) : Bool :=
  listHasSeg msg.data sub.data

/-- Sleep durations produced by a run of consecutive failed attempts
starting at attempt `i`: `3*i+1`, `3*(i+1)+1`, ... (`n` of them). -/
def sleepsFrom (i : Int) : Nat → List Int
  | 0 => []
  | n + 1 => (3 * i + 1) :: sleepsFrom (i + 1) n

/- Concrete targets and probes used for witnesses and counterexamples. -/

def cfgA : MysqlConfig :=
  { name := "dbA", user := "u", pass := "pw", host := "hA", port := "3306", tls := false }

def cfgB : MysqlConfig :=
  { name := "dbB", user := "u", pass := "pw", host := "hB", port := "3307", tls := false }

/-- A probe that fails every attempt with reason `"boom"`. -/
def probeFailAll : Int → Option String := fun _ => some "boom"

/-- A probe that succeeds on every attempt. -/
def probeOk : Int → Option String := fun _ => none

/-- Probe assignment where `cfgA` always fails and every other target
succeeds immediately. -/
def probesAB : MysqlConfig → Int → Option String :=
  fun cfg => if cfg = cfgA then probeFailAll else probeOk

/-- A probe that fails attempts 1 and 2 and succeeds from attempt 3 on. -/
def probeThird : Int → Option String :=
  fun i => if i < 3 then some "x" else none

/- Lemmas about the retry loop. -/

theorem sleepsFrom_length (i : Int) (n : Nat) : (sleepsFrom i n).length = n := by
  induction n generalizing i with
  | zero => rfl
  | succ n ih => simp [sleepsFrom, ih]

theorem sleepsFrom_eq_map (n : Nat) (i : Int) :
    sleepsFrom i n = (List.range n).map (fun j : Nat => 3 * (i + (j : Int)) + 1) := by
  induction n generalizing i with
  | zero => rfl
  | succ n ih =>
    rw [sleepsFrom, ih (i + 1), List.range_succ_eq_map, List.map_cons, List.map_map]
    simp only [List.cons.injEq]
    constructor
    · push_cast
      ring
    · refine List.map_congr_left (fun j _ => ?_)
      show 3 * (i + 1 + (j : Int)) + 1 = 3 * (i + ((j : Int) + 1)) + 1
      ring

theorem loopFrom_exit (probe : Int → Option String) (tries i : Int) (fuel : Nat)
    (h : tries < i) : loopFrom probe tries i fuel = ⟨i, 0, []⟩ := by
  cases fuel with
  | zero => rfl
  | succ n => simp [loopFrom, not_le.mpr h]

theorem loopFrom_all_fail (probe : Int → Option String) (tries : Int)
    (hfail : ∀ j, 1 ≤ j → j ≤ tries → (probe j).isSome) :
    ∀ (fuel : Nat) (i : Int), 1 ≤ i → i ≤ tries + 1 →
      fuel = (tries + 1 - i).toNat + 1 →
      loopFrom probe tries i fuel =
        ⟨tries + 1, (tries + 1 - i).toNat, sleepsFrom i (tries + 1 - i).toNat⟩ := by
  intro fuel
  induction fuel with
  | zero => intro i _ _ hf; omega
  | succ n ih =>
    intro i h1 h2 hf
    by_cases hle : i ≤ tries
    · obtain ⟨r, hr⟩ := Option.isSome_iff_exists.mp (hfail i h1 hle)
      have hn : n = (tries + 1 - (i + 1)).toNat + 1 := by omega
      have hrec := ih (i + 1) (by omega) (by omega) hn
      have hcnt : (tries + 1 - i).toNat = (tries + 1 - (i + 1)).toNat + 1 := by omega
      rw [loopFrom, if_pos hle, hr]
      simp only [hrec, hcnt, sleepsFrom]
    · have hi : i = tries + 1 := by omega
      subst hi
      rw [loopFrom, if_neg hle]
      have h0 : (tries + 1 - (tries + 1)).toNat = 0 := by omega
      simp [h0, sleepsFrom]

theorem loopFrom_succeeds (probe : Int → Option String) (tries k : Int)
    (hk2 : k ≤ tries)
    (hfail : ∀ j, 1 ≤ j → j < k → (probe j).isSome) (hsucc : probe k = none) :
    ∀ (fuel : Nat) (i : Int), 1 ≤ i → i ≤ k →
      fuel = (tries + 1 - i).toNat + 1 →
      loopFrom probe tries i fuel = ⟨k, (k - i).toNat + 1, sleepsFrom i (k - i).toNat⟩ := by
  intro fuel
  induction fuel with
  | zero => intro i _ hik hf; omega
  | succ n ih =>
    intro i h1 hik hf
    have hle : i ≤ tries := by omega
    by_cases hik' : i = k
    · subst hik'
      rw [loopFrom, if_pos hle, hsucc]
      have h0 : (i - i).toNat = 0 := by omega
      simp [h0, sleepsFrom]
    · have hlt : i < k := lt_of_le_of_ne hik hik'
      obtain ⟨r, hr⟩ := Option.isSome_iff_exists.mp (hfail i h1 hlt)
      have hn : n = (tries + 1 - (i + 1)).toNat + 1 := by omega
      have hrec := ih (i + 1) (by omega) (by omega) hn
      have hcnt : (k - i).toNat = (k - (i + 1)).toNat + 1 := by omega
      rw [loopFrom, if_pos hle, hr]
      simp only [hrec, hcnt, sleepsFrom]

theorem runWithRetry_all_fail (probe : Int → Option String) (tries : Int)
    (ht : 0 ≤ tries) (hfail : ∀ j, 1 ≤ j → j ≤ tries → (probe j).isSome) :
    runWithRetry probe tries = ⟨tries + 1, tries.toNat, sleepsFrom 1 tries.toNat⟩ := by
  have hf : tries.toNat + 1 = (tries + 1 - 1).toNat + 1 := by omega
  have := loopFrom_all_fail probe tries hfail (tries.toNat + 1) 1 le_rfl (by omega) hf
  have he : (tries + 1 - 1).toNat = tries.toNat := by omega
  rw [runWithRetry, this, he]

theorem runWithRetry_succeeds_at (probe : Int → Option String) (tries k : Int)
    (hk1 : 1 ≤ k) (hk2 : k ≤ tries) (hfail : ∀ j, 1 ≤ j → j < k → (probe j).isSome)
    (hsucc : probe k = none) :
    runWithRetry probe tries = ⟨k, (k - 1).toNat + 1, sleepsFrom 1 (k - 1).toNat⟩ := by
  have hf : tries.toNat + 1 = (tries + 1 - 1).toNat + 1 := by omega
  exact loopFrom_succeeds probe tries k hk2 hfail hsucc (tries.toNat + 1) 1 le_rfl hk1 hf

theorem runWithRetry_zero (probe : Int → Option String) :
    runWithRetry probe 0 = ⟨1, 0, []⟩ := by
  rw [runWithRetry]
  exact loopFrom_exit probe 0 1 _ (by omega)

theorem runWithRetry_neg (probe : Int → Option String) (tries : Int) (h : tries < 0) :
    runWithRetry probe tries = ⟨1, 0, []⟩ := by
  rw [runWithRetry]
  exact loopFrom_exit probe tries 1 _ (by omega)

/- Lemmas about the coordinator's read loop. -/

theorem coordinatorReads_all_none (l : List (Option String)) (h : ∀ x ∈ l, x = none) :
    coordinatorReads l = (l.length, none) := by
  induction l with
  | nil => rfl
  | cons a t ih =>
    have ha : a = none := h a (List.mem_cons_self a t)
    subst ha
    rw [coordinatorReads]
    simp [ih (fun x hx => h x (List.mem_cons_of_mem _ hx))]

theorem coordinatorReads_first_some (pre : List (Option String)) (e : String)
    (post : List (Option String)) (h : ∀ x ∈ pre, x = none) :
    coordinatorReads (pre ++ some e :: post) = (pre.length + 1, some e) := by
  induction pre with
  | nil => rfl
  | cons a t ih =>
    have ha : a = none := h a (List.mem_cons_self a t)
    subst ha
    rw [List.cons_append, coordinatorReads]
    simp [ih (fun x hx => h x (List.mem_cons_of_mem _ hx))]

theorem runWithRetry_nonpos (probe : Int → Option String) (tries : Int) (h : tries ≤ 0) :
    runWithRetry probe tries = ⟨1, 0, []⟩ := by
  rw [runWithRetry]
  exact loopFrom_exit probe tries 1 _ (by omega)

theorem runnerSend_zero (cfg : MysqlConfig) (probe : Int → Option String) :
    runnerSend cfg probe 0 = some (failMsg cfg) := by
  rw [runnerSend, runWithRetry_nonpos _ _ le_rfl]
  norm_num

theorem runnerSend_neg (cfg : MysqlConfig) (probe : Int → Option String) (tries : Int)
    (h : tries < 0) : runnerSend cfg probe tries = none := by
  rw [runnerSend, runWithRetry_nonpos _ _ h.le]
  show (if (1 : Int) = tries + 1 then some (failMsg cfg) else none) = none
  rw [if_neg (by omega)]

theorem totalProbeCalls_nonpos (cfgs : List MysqlConfig)
    (probes : MysqlConfig → Int → Option String) (tries : Int) (h : tries ≤ 0) :
    totalProbeCalls cfgs probes tries = 0 := by
  rw [totalProbeCalls]
  have hz : cfgs.map (fun cfg => (runWithRetry (probes cfg) tries).calls) =
      cfgs.map (fun _ => 0) :=
    List.map_congr_left (fun cfg _ => by rw [runWithRetry_nonpos _ _ h])
  rw [hz]
  simp

/-- C5 (confirmed): for a single target whose probe fails on its first `k-1`
attempts and succeeds on attempt `k` (`1 ≤ k ≤ tries`), the retry loop of
`CheckConnections` stops at attempt `k`: it performs exactly `k` probe calls,
the goroutine reports success on the channel, and it sleeps exactly `k-1`
times, the `i`-th sleep (1-indexed, here `i = j+1` over `j < k-1`) lasting
`3*i+1` seconds. -/
theorem runWithRetry_stops_at_first_success (cfg : MysqlConfig)
    (probe : Int → Option String) (tries : Int) (k : Nat)
    (hk1 : 1 ≤ k) (hk2 : (k : Int) ≤ tries)
    (hfail : ∀ j : Int, 1 ≤ j → j < (k : Int) → (probe j).isSome)
    (hsucc : probe (k : Int) = none) :
    (runWithRetry probe tries).calls = k ∧
    (runWithRetry probe tries).finalI = (k : Int) ∧
    (runWithRetry probe tries).sleeps.length = k - 1 ∧
    (runWithRetry probe tries).sleeps =
      (List.range (k - 1)).map (fun j : Nat => 3 * ((j : Int) + 1) + 1) ∧
    runnerSend cfg probe tries = none := by
  have h := runWithRetry_succeeds_at probe tries (k : Int) (by exact_mod_cast hk1) hk2 hfail hsucc
  have htn : ((k : Int) - 1).toNat = k - 1 := by omega
  rw [htn] at h
  refine ⟨?_, ?_, ?_, ?_, ?_⟩
  · rw [h]
    show k - 1 + 1 = k
    omega
  · rw [h]
  · rw [h]
    exact sleepsFrom_length 1 (k - 1)
  · rw [h]
    show sleepsFrom 1 (k - 1) = _
    rw [sleepsFrom_eq_map]
    refine List.map_congr_left (fun j _ => ?_)
    ring
  · rw [runnerSend, h]
    show (if (k : Int) = tries + 1 then some (failMsg cfg) else none) = none
    exact if_neg (by omega)

/-- Witness for C5 at a concrete input: the probe fails attempts 1 and 2
and succeeds on attempt 3, with `tries = 5`. -/
theorem runWithRetry_stops_at_first_success_witness :
    (runWithRetry probeThird 5).calls = 3 ∧
    (runWithRetry probeThird 5).finalI = (3 : Int) ∧
    (runWithRetry probeThird 5).sleeps.length = 3 - 1 ∧
    (runWithRetry probeThird 5).sleeps =
      (List.range (3 - 1)).map (fun j : Nat => 3 * ((j : Int) + 1) + 1) ∧
    runnerSend cfgA probeThird 5 = none :=
  runWithRetry_stops_at_first_success cfgA probeThird 5 3 (by norm_num) (by norm_num)
    (fun j h1 h2 => by
      rw [probeThird, if_pos (by omega : j < 3)]
      rfl)
    (by rw [probeThird]; norm_num)

/-- C4 counterexample: with a probe that fails both of 2 attempts with
reason `"boom"`, the retry runner does perform exactly 2 probe calls, but
the failure it reports is the fixed string
`"[hA:dbA/3306] connection attempts have failed"`, which does not carry the
most recent attempt's failure reason. -/
theorem runnerSend_lacks_reason_cex :
    runnerSend cfgA probeFailAll 2 = some (failMsg cfgA) ∧
    (runWithRetry probeFailAll 2).calls = 2 ∧
    msgContains (failMsg cfgA) "boom" = false := by decide

/-- C4 amended: for a single target whose probe fails on all `tries ≥ 1`
attempts, the retry runner performs exactly `tries` probe calls and sends an
`ExhaustedRetries`-style error that names the target's host, name and port
(in the source's argument order host, name, port — name and port transposed
relative to the per-attempt log format) — but the error is a fixed message
that does not carry the most recent attempt's failure reason: the sent value
is the same for every probe with the same all-fail pattern, whatever the
reasons. -/
theorem runnerSend_exhausted (cfg : MysqlConfig) (probe : Int → Option String)
    (tries : Int) (ht : 1 ≤ tries)
    (hfail : ∀ j : Int, 1 ≤ j → j ≤ tries → (probe j).isSome) :
    (runWithRetry probe tries).calls = tries.toNat ∧
    runnerSend cfg probe tries = some (failMsg cfg) ∧
    failMsg cfg = "[" ++ cfg.host ++ ":" ++ cfg.name ++ "/" ++ cfg.port ++
      "] connection attempts have failed" ∧
    (∀ probe2 : Int → Option String, (∀ j : Int, 1 ≤ j → j ≤ tries → (probe2 j).isSome) →
      runnerSend cfg probe2 tries = runnerSend cfg probe tries) := by
  have h := runWithRetry_all_fail probe tries (by omega) hfail
  have hsend : ∀ p : Int → Option String,
      runWithRetry p tries = ⟨tries + 1, tries.toNat, sleepsFrom 1 tries.toNat⟩ →
      runnerSend cfg p tries = some (failMsg cfg) := by
    intro p hp
    rw [runnerSend, hp]
    show (if tries + 1 = tries + 1 then some (failMsg cfg) else none) = some (failMsg cfg)
    rw [if_pos rfl]
  refine ⟨by rw [h], hsend probe h, rfl, ?_⟩
  intro probe2 hfail2
  have h2 := runWithRetry_all_fail probe2 tries (by omega) hfail2
  rw [hsend probe2 h2, hsend probe h]

/-- Witness for the amended C4 at a concrete input. -/
theorem runnerSend_exhausted_witness :
    (runWithRetry probeFailAll 2).calls = (2 : Int).toNat ∧
    runnerSend cfgA probeFailAll 2 = some (failMsg cfgA) ∧
    failMsg cfgA = "[" ++ cfgA.host ++ ":" ++ cfgA.name ++ "/" ++ cfgA.port ++
      "] connection attempts have failed" ∧
    (∀ probe2 : Int → Option String, (∀ j : Int, 1 ≤ j → j ≤ (2 : Int) → (probe2 j).isSome) →
      runnerSend cfgA probe2 2 = runnerSend cfgA probeFailAll 2) :=
  runnerSend_exhausted cfgA probeFailAll 2 (by norm_num) (fun j _ _ => rfl)

/-- C1 counterexample: two targets with `tries = 1`, where `cfgA`'s runner
fails and `cfgB`'s succeeds.  The arrival order in which the failure is
read first is a legal arrival order (the channel is buffered, completion
order is nondeterministic), and on it the coordinator performs exactly one
channel read — not one per launched target (2) — before returning the
failure. -/
theorem CheckConnections_no_join_cex :
    ArrivalOf [cfgA, cfgB] probesAB 1 [some (failMsg cfgA), none] ∧
    channelReads [some (failMsg cfgA), none] = 1 ∧
    CheckConnections [some (failMsg cfgA), none] = some (failMsg cfgA) ∧
    List.length [cfgA, cfgB] = 2 := by
  refine ⟨?_, by decide, by decide, rfl⟩
  have h : launchRunners [cfgA, cfgB] probesAB 1 = [some (failMsg cfgA), none] := by decide
  unfold ArrivalOf
  rw [h]

/-- C1 amended: when the coordinator's read loop meets its first failure —
after `pre` successful results, in any legal arrival order — it returns
that failure immediately, having performed only `pre.length + 1` channel
reads (which is at most, and in general fewer than, the number of launched
targets); it does not wait to read one result per launched target.  The
sibling runners are nevertheless unaffected by the failure: each launched
runner's whole trace (attempt count, sleeps, sent result) is a function of
its own target's probe behaviour only. -/
theorem CheckConnections_returns_at_first_failure (cfgs : List MysqlConfig)
    (probes : MysqlConfig → Int → Option String) (tries : Int)
    (pre post : List (Option String)) (e : String)
    (harr : ArrivalOf cfgs probes tries (pre ++ some e :: post))
    (hpre : ∀ x ∈ pre, x = none) :
    channelReads (pre ++ some e :: post) = pre.length + 1 ∧
    CheckConnections (pre ++ some e :: post) = some e ∧
    pre.length + 1 + post.length = cfgs.length ∧
    (∀ probes2 : MysqlConfig → Int → Option String, ∀ cfg : MysqlConfig,
      probes2 cfg = probes cfg →
      runWithRetry (probes2 cfg) tries = runWithRetry (probes cfg) tries ∧
      runnerSend cfg (probes2 cfg) tries = runnerSend cfg (probes cfg) tries) := by
  have hco := coordinatorReads_first_some pre e post hpre
  refine ⟨?_, ?_, ?_, ?_⟩
  · rw [channelReads, hco]
  · rw [CheckConnections, hco]
  · have hlen := harr.length_eq
    rw [List.length_append, List.length_cons] at hlen
    rw [launchRunners, List.length_map] at hlen
    omega
  · intro probes2 cfg hagree
    exact ⟨by rw [hagree], by rw [runnerSend, runnerSend, hagree]⟩

/-- Witness for the amended C1 at the concrete two-target instance of the
counterexample (`pre = []`, `post = [none]`). -/
theorem CheckConnections_returns_at_first_failure_witness :
    channelReads ([] ++ some (failMsg cfgA) :: [none]) = List.length ([] : List (Option String)) + 1 ∧
    CheckConnections ([] ++ some (failMsg cfgA) :: [none]) = some (failMsg cfgA) := by
  have h : launchRunners [cfgA, cfgB] probesAB 1 = [] ++ some (failMsg cfgA) :: [none] := by
    decide
  have harr : ArrivalOf [cfgA, cfgB] probesAB 1 ([] ++ some (failMsg cfgA) :: [none]) := by
    unfold ArrivalOf
    rw [h]
  have hmain := CheckConnections_returns_at_first_failure [cfgA, cfgB] probesAB 1
    [] [none] (failMsg cfgA) harr (by intro x hx; cases hx)
  exact ⟨hmain.1, hmain.2.1⟩

/-- C8 (confirmed): `CheckConnections` on an empty target list launches no
goroutine, performs no probe call and no channel read, and returns success
(`nil`) immediately. -/
theorem CheckConnections_empty (probes : MysqlConfig → Int → Option String) (tries : Int)
    (arrival : List (Option String)) (h : ArrivalOf [] probes tries arrival) :
    arrival = [] ∧ CheckConnections arrival = none ∧ channelReads arrival = 0 ∧
    launchRunners [] probes tries = [] ∧ totalProbeCalls [] probes tries = 0 := by
  have h0 : arrival = [] := by
    have hlen := h.length_eq
    rw [launchRunners, List.map_nil, List.length_nil] at hlen
    exact List.length_eq_zero.mp hlen
  subst h0
  exact ⟨rfl, rfl, rfl, rfl, rfl⟩

/-- Witness for C8 at a concrete input. -/
theorem CheckConnections_empty_witness :
    CheckConnections [] = none ∧ channelReads [] = 0 ∧
    totalProbeCalls [] probesAB 1 = 0 := by
  have h := CheckConnections_empty probesAB 1 [] (List.Perm.refl _)
  exact ⟨h.2.1, h.2.2.1, h.2.2.2.2⟩

/-- C10 (confirmed): on a non-empty target list, `CheckConnections` with
`tries = 0` performs no probe call yet returns some target's
`"connection attempts have failed"` error (the loop never runs, leaving
`i = 1 = tries+1`), while with any `tries < 0` it performs no probe call
and returns `nil` (the exhaustion test `i == tries+1` is false). -/
theorem CheckConnections_nonpositive_tries (cfgs : List MysqlConfig)
    (probes : MysqlConfig → Int → Option String) (hne : cfgs ≠ []) :
    (∀ arrival, ArrivalOf cfgs probes 0 arrival →
      totalProbeCalls cfgs probes 0 = 0 ∧
      ∃ cfg, cfg ∈ cfgs ∧ CheckConnections arrival = some (failMsg cfg)) ∧
    (∀ tries : Int, tries < 0 → ∀ arrival, ArrivalOf cfgs probes tries arrival →
      totalProbeCalls cfgs probes tries = 0 ∧ CheckConnections arrival = none) := by
  constructor
  · intro arrival harr
    refine ⟨totalProbeCalls_nonpos cfgs probes 0 le_rfl, ?_⟩
    have hall : ∀ x ∈ arrival, ∃ cfg, cfg ∈ cfgs ∧ x = some (failMsg cfg) := by
      intro x hx
      have hx2 : x ∈ launchRunners cfgs probes 0 := harr.mem_iff.mp hx
      rw [launchRunners] at hx2
      obtain ⟨cfg, hcfg, hx3⟩ := List.mem_map.mp hx2
      exact ⟨cfg, hcfg, by rw [← hx3, runnerSend_zero]⟩
    cases arrival with
    | nil =>
      exfalso
      have hlen := harr.length_eq
      rw [launchRunners, List.length_map, List.length_nil] at hlen
      exact hne (List.length_eq_zero.mp hlen.symm)
    | cons a t =>
      obtain ⟨cfg, hcfg, ha⟩ := hall a (List.mem_cons_self a t)
      subst ha
      exact ⟨cfg, hcfg, rfl⟩
  · intro tries htries arrival harr
    refine ⟨totalProbeCalls_nonpos cfgs probes tries htries.le, ?_⟩
    have hall : ∀ x ∈ arrival, x = none := by
      intro x hx
      have hx2 : x ∈ launchRunners cfgs probes tries := harr.mem_iff.mp hx
      rw [launchRunners] at hx2
      obtain ⟨cfg, _, hx3⟩ := List.mem_map.mp hx2
      rw [← hx3, runnerSend_neg _ _ _ htries]
    rw [CheckConnections, coordinatorReads_all_none arrival hall]

/-- Witness for C10 at a concrete input: one target, `tries = 0` and
`tries = -1`. -/
theorem CheckConnections_nonpositive_tries_witness :
    (totalProbeCalls [cfgA] probesAB 0 = 0 ∧
      ∃ cfg, cfg ∈ [cfgA] ∧ CheckConnections [some (failMsg cfgA)] = some (failMsg cfg)) ∧
    (totalProbeCalls [cfgA] probesAB (-1) = 0 ∧ CheckConnections [none] = none) := by
  have h := CheckConnections_nonpositive_tries [cfgA] probesAB (by simp)
  have h1 : launchRunners [cfgA] probesAB 0 = [some (failMsg cfgA)] := by decide
  have h2 : launchRunners [cfgA] probesAB (-1) = [none] := by decide
  refine ⟨h.1 [some (failMsg cfgA)] ?_, h.2 (-1) (by norm_num) [none] ?_⟩
  · unfold ArrivalOf
    rw [h1]
  · unfold ArrivalOf
    rw [h2]

/-!
## `pkg/metrics`: `MultiMySQLExporter`

`performChecks` (src/pkg/metrics, lines 146-179) takes `e.mu.Lock()` and
holds it (via `defer`) until it returns; under that exclusive lock it
resets both `GaugeVec`s, then launches one goroutine per config that calls
`mysqlcheck.CheckConnection` (network I/O) and writes the availability and
duration gauges for its label triple, and waits for all goroutines
(`wg.Wait()`) before unlocking.  `Collect` (lines 181-187) reads both
`GaugeVec`s under `e.mu.RLock()`.  `Start` (lines 124-140) calls
`performChecks()` synchronously, then spawns the ticking loop.

The embedding models this as a sequence of events.  One `performChecks`
call is the block `lockW :: reset :: body ++ [unlockW]`, where `body` is
an arbitrary interleaving of the per-target goroutines' `probe` and
`write` events (each `write` is tagged with the number `c` of the probing
cycle that produced it).  A `Collect` is a single `observe` event: by the
`sync.RWMutex` discipline it cannot happen between `lockW` and `unlockW`.
The two `GaugeVec`s are modelled as one association map from the
(host, port, database) label triple to the cycle tag of the entry's
values; `Reset()` empties it and `With(labels).Set(v)` upserts. -/

/-- The Prometheus label triple `{host, port, database}` used by both
gauges of the exporter. -/
abbrev Labels := String × String × String

/-- The label triple built from a config (lines 163-167). -/
def mcLabels (cfg : MysqlConfig) : Labels := (cfg.host, cfg.port, cfg.name)

/-- One event in the exporter's execution. -/
inductive PStep where
  | lockW : PStep
  | reset : PStep
  | probe (l : Labels) : PStep
  | write (l : Labels) (c : Nat) : PStep
  | unlockW : PStep
  | observe : PStep
  | spawnLoop : PStep
deriving Repr, DecidableEq

/-- `GaugeVec.With(l).Set`: update the entry for label triple `l`, or
append a fresh one if absent. -/
def gaugeSet : List (Labels × Nat) → Labels → Nat → List (Labels × Nat)
  | [], l, c => [(l, c)]
  | (l', c') :: t, l, c => if l' = l then (l, c) :: t else (l', c') :: gaugeSet t l c

/-- Effect of one event on the gauge state. -/
def execStep (s : List (Labels × Nat)) : PStep → List (Labels × Nat)
  | PStep.reset => []
  | PStep.write l c => gaugeSet s l c
  | _ => s

/-- `performChecks`: take the write lock, reset, run the goroutine body,
wait, unlock.  The whole body — including every `probe` (network I/O)
event — sits between `lockW` and `unlockW` because the source's
`defer e.mu.Unlock()` only fires after `wg.Wait()`. -/
def performChecks (body : List PStep) : List PStep :=
  PStep.lockW :: PStep.reset :: body ++ [PStep.unlockW]

/-- `Start`: one synchronous `performChecks` cycle, then spawn the
background ticking loop (lines 124-140, in that order). -/
def Start (body : List PStep) : List PStep :=
  performChecks body ++ [PStep.spawnLoop]

/-- The events a cycle-`c` goroutine body may contain: probes, and gauge
writes tagged with this cycle. -/
def isBodyStep (c : Nat) : PStep → Bool
  | PStep.probe _ => true
  | PStep.write _ c' => c' = c
  | _ => false

/-- `body` is a possible interleaving of the per-target goroutines of one
cycle-`c` `performChecks` call: only probe and cycle-`c` write events. -/
def BodySteps (body : List PStep) (c : Nat) : Prop :=
  ∀ s ∈ body, isBodyStep c s = true

instance (body : List PStep) (c : Nat) : Decidable (BodySteps body c) :=
  inferInstanceAs (Decidable (∀ s ∈ body, isBodyStep c s = true))

/-- Label triples written by a body, in order. -/
def writesOf : List PStep → List Labels
  | [] => []
  | PStep.write l _ :: t => l :: writesOf t
  | _ :: t => writesOf t

/-- Number of probe (network I/O) events in a list of events. -/
def probeCount (t : List PStep) : Nat :=
  t.countP fun s => match s with | PStep.probe _ => true | _ => false

/-- Probe events counted while the write lock is held, scanning the event
list with the current lock state. -/
def probesWhileLocked : List PStep → Bool → Nat
  | [], _ => 0
  | PStep.lockW :: t, _ => probesWhileLocked t true
  | PStep.unlockW :: t, _ => probesWhileLocked t false
  | PStep.probe _ :: t, locked => (if locked then 1 else 0) + probesWhileLocked t locked
  | _ :: t, locked => probesWhileLocked t locked

/-- Legal interleavings of the exporter's writer (the serialized
`performChecks` calls: the synchronous one in `Start`, then one per tick)
with concurrent `Collect` reads.  Because `performChecks` holds `e.mu`
exclusively for its whole extent and `Collect` takes `e.mu.RLock()`, an
`observe` can never fall inside a `performChecks` block — it can only sit
between blocks.  Cycle numbers and bodies are arbitrary per block. -/
inductive ValidTrace : List PStep → Prop where
  | nil : ValidTrace []
  | obs {t : List PStep} : ValidTrace t → ValidTrace (PStep.observe :: t)
  | cycle {t : List PStep} (body : List PStep) (c : Nat) (hbody : BodySteps body c) :
      ValidTrace t → ValidTrace (performChecks body ++ t)

/-- The gauge states seen by the successive `Collect` reads of a trace,
starting from gauge state `s`. -/
def observations : List (Labels × Nat) → List PStep → List (List (Labels × Nat))
  | _, [] => []
  | s, PStep.observe :: t => s :: observations s t
  | s, st :: t => observations (execStep s st) t

/-- A snapshot is cycle-consistent when all its entries carry the same
cycle tag: no mix of two different probing cycles. -/
def CycleConsistent (s : List (Labels × Nat)) : Prop :=
  ∀ p ∈ s, ∀ q ∈ s, p.2 = q.2

/-- All entries tagged with cycle `c`. -/
def AllTag (c : Nat) (s : List (Labels × Nat)) : Prop :=
  ∀ p ∈ s, p.2 = c

/- Concrete labels and cycle bodies for witnesses and counterexamples. -/

def labX : Labels := ("hA", "3306", "dbA")

def labY : Labels := ("hB", "3307", "dbB")

def bodyX : List PStep := [PStep.probe labX, PStep.write labX 1]

def bodyXY : List PStep :=
  [PStep.probe labX, PStep.write labX 1, PStep.probe labY, PStep.write labY 1]

def traceXY : List PStep := PStep.observe :: performChecks bodyXY ++ [PStep.observe]

/- Lemmas about the exporter's event semantics. -/

theorem probesWhileLocked_body (body : List PStep) (c : Nat) (h : BodySteps body c) :
    probesWhileLocked (body ++ [PStep.unlockW]) true = probeCount body := by
  induction body with
  | nil => rfl
  | cons s t ih =>
    have hs := h s (List.mem_cons_self s t)
    have ht : BodySteps t c := fun x hx => h x (List.mem_cons_of_mem _ hx)
    cases s with
    | probe l =>
      rw [List.cons_append]
      show 1 + probesWhileLocked (t ++ [PStep.unlockW]) true = _
      rw [ih ht]
      have hp : probeCount (PStep.probe l :: t) = probeCount t + 1 := by
        simp [probeCount, List.countP_cons]
      rw [hp]
      omega
    | write l c' =>
      rw [List.cons_append]
      show probesWhileLocked (t ++ [PStep.unlockW]) true = _
      rw [ih ht]
      have hp : probeCount (PStep.write l c' :: t) = probeCount t := by
        simp [probeCount, List.countP_cons]
      rw [hp]
    | lockW => simp [isBodyStep] at hs
    | unlockW => simp [isBodyStep] at hs
    | reset => simp [isBodyStep] at hs
    | observe => simp [isBodyStep] at hs
    | spawnLoop => simp [isBodyStep] at hs

theorem observations_cons_of_ne (a : PStep) (h : a ≠ PStep.observe)
    (s : List (Labels × Nat)) (t : List PStep) :
    observations s (a :: t) = observations (execStep s a) t := by
  cases a with
  | observe => exact absurd rfl h
  | lockW => rfl
  | reset => rfl
  | probe l => rfl
  | write l c => rfl
  | unlockW => rfl
  | spawnLoop => rfl

theorem observations_append_no_observe (l r : List PStep)
    (h : ∀ s ∈ l, s ≠ PStep.observe) :
    ∀ s0, observations s0 (l ++ r) = observations (l.foldl execStep s0) r := by
  induction l with
  | nil => intro s0; rfl
  | cons a t ih =>
    intro s0
    have ha := h a (List.mem_cons_self a t)
    have ht : ∀ s ∈ t, s ≠ PStep.observe := fun x hx => h x (List.mem_cons_of_mem _ hx)
    rw [List.cons_append, observations_cons_of_ne a ha, List.foldl_cons]
    exact ih ht (execStep s0 a)

theorem performChecks_no_observe (body : List PStep) (c : Nat) (h : BodySteps body c) :
    ∀ s ∈ performChecks body, s ≠ PStep.observe := by
  intro s hs
  rw [performChecks, List.cons_append] at hs
  rcases List.mem_cons.mp hs with rfl | hs2
  · intro he; cases he
  rw [List.cons_append] at hs2
  rcases List.mem_cons.mp hs2 with rfl | hs3
  · intro he; cases he
  rcases List.mem_append.mp hs3 with hs4 | hs4
  · have hb := h s hs4
    intro he
    subst he
    simp [isBodyStep] at hb
  · rcases List.mem_singleton.mp hs4 with rfl
    intro he; cases he

theorem gaugeSet_allTag (s : List (Labels × Nat)) (l : Labels) (c : Nat)
    (hs : AllTag c s) : AllTag c (gaugeSet s l c) := by
  induction s with
  | nil =>
    intro p hp
    rcases List.mem_singleton.mp hp with rfl
    rfl
  | cons a t ih =>
    have ha := hs a (List.mem_cons_self a t)
    have ht : AllTag c t := fun x hx => hs x (List.mem_cons_of_mem _ hx)
    by_cases hal : a.1 = l
    · rw [gaugeSet, if_pos hal]
      intro p hp
      rcases List.mem_cons.mp hp with rfl | hp2
      · rfl
      · exact ht p hp2
    · rw [gaugeSet, if_neg hal]
      intro p hp
      rcases List.mem_cons.mp hp with rfl | hp2
      · exact ha
      · exact ih ht p hp2

theorem foldl_execStep_body_allTag (body : List PStep) (c : Nat) (h : BodySteps body c) :
    ∀ s, AllTag c s → AllTag c (body.foldl execStep s) := by
  induction body with
  | nil => intro s hs; exact hs
  | cons a t ih =>
    intro s hs
    have ha := h a (List.mem_cons_self a t)
    have ht : BodySteps t c := fun x hx => h x (List.mem_cons_of_mem _ hx)
    cases a with
    | probe l => exact ih ht s hs
    | write l c' =>
      have hc : c' = c := by simpa [isBodyStep] using ha
      subst hc
      exact ih ht (gaugeSet s l c') (gaugeSet_allTag s l c' hs)
    | lockW => simp [isBodyStep] at ha
    | unlockW => simp [isBodyStep] at ha
    | reset => simp [isBodyStep] at ha
    | observe => simp [isBodyStep] at ha
    | spawnLoop => simp [isBodyStep] at ha

theorem foldl_execStep_performChecks_allTag (body : List PStep) (c : Nat)
    (h : BodySteps body c) (s : List (Labels × Nat)) :
    AllTag c ((performChecks body).foldl execStep s) := by
  rw [performChecks, List.cons_append, List.cons_append]
  rw [List.foldl_cons, List.foldl_cons, List.foldl_append]
  show AllTag c (List.foldl execStep (List.foldl execStep [] body) [PStep.unlockW])
  show AllTag c (List.foldl execStep [] body)
  exact foldl_execStep_body_allTag body c h [] (fun p hp => absurd hp (List.not_mem_nil p))

theorem allTag_cycleConsistent (c : Nat) (s : List (Labels × Nat)) (h : AllTag c s) :
    CycleConsistent s :=
  fun p hp q hq => (h p hp).trans (h q hq).symm

theorem observations_cycleConsistent_aux (t : List PStep) (h : ValidTrace t) :
    ∀ s, CycleConsistent s → ∀ o ∈ observations s t, CycleConsistent o := by
  induction h with
  | nil =>
    intro s hs o ho
    cases ho
  | obs hv ih =>
    intro s hs o ho
    rw [observations] at ho
    rcases List.mem_cons.mp ho with rfl | ho2
    · exact hs
    · exact ih s hs o ho2
  | cycle body c hbody hv ih =>
    intro s hs o ho
    rw [observations_append_no_observe _ _ (performChecks_no_observe body c hbody) s] at ho
    exact ih _
      (allTag_cycleConsistent c _ (foldl_execStep_performChecks_allTag body c hbody s)) o ho

/-- C3 (confirmed): in every legal interleaving of `performChecks` cycles
with concurrent `Collect` reads, each snapshot a reader observes is
cycle-consistent — all its entries come from one probing cycle (because
`performChecks` holds the write lock across its whole `Reset`-then-
repopulate extent, a reader can never see a partially reset or partially
repopulated state). -/
theorem Collect_never_mixes_cycles (t : List PStep) (h : ValidTrace t) :
    ∀ o ∈ observations [] t, CycleConsistent o :=
  observations_cycleConsistent_aux t h []
    (fun p hp => absurd hp (List.not_mem_nil p))

/-- Witness for C3: a concrete trace — a read before the cycle, one
two-target cycle, a read after — whose second observation is the full
cycle-1 snapshot, shown cycle-consistent by the theorem. -/
theorem Collect_never_mixes_cycles_witness :
    CycleConsistent [(labX, 1), (labY, 1)] :=
  Collect_never_mixes_cycles traceXY
    (ValidTrace.obs (ValidTrace.cycle bodyXY 1 (by decide) (ValidTrace.obs ValidTrace.nil)))
    [(labX, 1), (labY, 1)] (by decide)

/-- C2 counterexample: a one-target `performChecks` cycle contains its
probe (network I/O) event strictly inside the write-locked section — the
count of probes performed while the exclusive lock is held is 1, not 0 as
the claim (probing outside the exclusive section) requires. -/
theorem performChecks_probe_inside_lock_cex :
    BodySteps bodyX 1 ∧
    probesWhileLocked (performChecks bodyX) false = 1 ∧
    probesWhileLocked (performChecks bodyX) false ≠ 0 := by decide

/-- C2 amended: every probe (network I/O) event of a `performChecks`
cycle happens while the write lock is held (`e.mu.Lock()` is taken before
the goroutines are launched and released, by `defer`, only after
`wg.Wait()`), so a concurrent `Collect` — which needs the read lock — is
excluded for the duration of the whole probing cycle, not only for a brief
snapshot replacement. -/
theorem performChecks_probes_all_inside_lock (body : List PStep) (c : Nat)
    (h : BodySteps body c) :
    probesWhileLocked (performChecks body) false = probeCount body := by
  rw [performChecks, List.cons_append, List.cons_append]
  show probesWhileLocked (body ++ [PStep.unlockW]) true = probeCount body
  exact probesWhileLocked_body body c h

/-- Witness for the amended C2 at a concrete two-target cycle body. -/
theorem performChecks_probes_all_inside_lock_witness :
    probesWhileLocked (performChecks bodyXY) false = probeCount bodyXY :=
  performChecks_probes_all_inside_lock bodyXY 1 (by decide)

/- Keys of the gauge state: the set of label triples that currently have
an entry (one per `GaugeVec` child). -/

def keysOf (s : List (Labels × Nat)) : List Labels := s.map Prod.fst

/-- `With(l).Set` repeated over a list of label triples, as produced by
one cycle's goroutines after `Reset()`. -/
def gaugeFold (s : List (Labels × Nat)) (ls : List Labels) (c : Nat) : List (Labels × Nat) :=
  ls.foldl (fun s l => gaugeSet s l c) s

/-- The gauge state published when `Start` returns — after its synchronous
first `performChecks` cycle and before any background-loop cycle runs. -/
def startSnapshot (body : List PStep) : List (Labels × Nat) :=
  (Start body).foldl execStep []

theorem keysOf_gaugeSet (s : List (Labels × Nat)) (l : Labels) (c : Nat) (x : Labels) :
    x ∈ keysOf (gaugeSet s l c) ↔ x ∈ keysOf s ∨ x = l := by
  induction s with
  | nil => simp [gaugeSet, keysOf]
  | cons a t ih =>
    by_cases hal : a.1 = l
    · rw [gaugeSet, if_pos hal]
      simp only [keysOf, List.map_cons, List.mem_cons] at ih ⊢
      rw [hal]
      tauto
    · rw [gaugeSet, if_neg hal]
      simp only [keysOf, List.map_cons, List.mem_cons] at ih ⊢
      tauto

theorem keysOf_gaugeSet_nodup (s : List (Labels × Nat)) (l : Labels) (c : Nat)
    (h : (keysOf s).Nodup) : (keysOf (gaugeSet s l c)).Nodup := by
  induction s with
  | nil => simp [gaugeSet, keysOf]
  | cons a t ih =>
    rw [keysOf, List.map_cons, List.nodup_cons] at h
    by_cases hal : a.1 = l
    · rw [gaugeSet, if_pos hal]
      rw [keysOf, List.map_cons, List.nodup_cons]
      exact ⟨hal ▸ h.1, h.2⟩
    · rw [gaugeSet, if_neg hal]
      rw [keysOf, List.map_cons, List.nodup_cons]
      refine ⟨?_, ih h.2⟩
      intro hmem
      rcases (keysOf_gaugeSet t l c a.1).mp hmem with h3 | h3
      · exact h.1 h3
      · exact hal h3

theorem keysOf_gaugeFold (ls : List Labels) (c : Nat) :
    ∀ s x, x ∈ keysOf (gaugeFold s ls c) ↔ x ∈ keysOf s ∨ x ∈ ls := by
  induction ls with
  | nil =>
    intro s x
    simp [gaugeFold]
  | cons l t ih =>
    intro s x
    rw [gaugeFold, List.foldl_cons]
    have h2 := ih (gaugeSet s l c) x
    rw [gaugeFold] at h2
    rw [h2, keysOf_gaugeSet]
    simp only [List.mem_cons]
    tauto

theorem keysOf_gaugeFold_nodup (ls : List Labels) (c : Nat) :
    ∀ s, (keysOf s).Nodup → (keysOf (gaugeFold s ls c)).Nodup := by
  induction ls with
  | nil => intro s hs; exact hs
  | cons l t ih =>
    intro s hs
    rw [gaugeFold, List.foldl_cons]
    exact ih (gaugeSet s l c) (keysOf_gaugeSet_nodup s l c hs)

theorem writesOf_cons_probe (l : Labels) (t : List PStep) :
    writesOf (PStep.probe l :: t) = writesOf t := rfl

theorem foldl_execStep_eq_gaugeFold (body : List PStep) (c : Nat) (h : BodySteps body c) :
    ∀ s, body.foldl execStep s = gaugeFold s (writesOf body) c := by
  induction body with
  | nil => intro s; rfl
  | cons a t ih =>
    intro s
    have ha := h a (List.mem_cons_self a t)
    have ht : BodySteps t c := fun x hx => h x (List.mem_cons_of_mem _ hx)
    cases a with
    | probe l =>
      rw [List.foldl_cons]
      exact ih ht s
    | write l c' =>
      have hc : c' = c := by simpa [isBodyStep] using ha
      subst hc
      rw [List.foldl_cons]
      exact ih ht (gaugeSet s l c')
    | lockW => simp [isBodyStep] at ha
    | unlockW => simp [isBodyStep] at ha
    | reset => simp [isBodyStep] at ha
    | observe => simp [isBodyStep] at ha
    | spawnLoop => simp [isBodyStep] at ha

theorem startSnapshot_eq (body : List PStep) (c : Nat) (h : BodySteps body c) :
    startSnapshot body = gaugeFold [] (writesOf body) c := by
  rw [startSnapshot, Start, List.foldl_append]
  show List.foldl execStep [] (performChecks body) = gaugeFold [] (writesOf body) c
  rw [performChecks, List.cons_append, List.cons_append]
  show List.foldl execStep [] (body ++ [PStep.unlockW]) = gaugeFold [] (writesOf body) c
  rw [List.foldl_append]
  show List.foldl execStep [] body = gaugeFold [] (writesOf body) c
  exact foldl_execStep_eq_gaugeFold body c h []

def bodyDup : List PStep :=
  [PStep.probe labX, PStep.write labX 1, PStep.probe labX, PStep.write labX 1]

/-- C7 counterexample: when two configured targets carry the same identity
triple (duplicates are not deduplicated by the exporter), the synchronous
first cycle performed by `Start` publishes a snapshot with a single entry
— not one entry per configured target (2): the second target's write
lands on the same `GaugeVec` child. -/
theorem Start_snapshot_duplicate_cex :
    BodySteps bodyDup 1 ∧
    writesOf bodyDup = [cfgA, cfgA].map mcLabels ∧
    (startSnapshot bodyDup).length = 1 ∧
    List.length [cfgA, cfgA] = 2 := by decide

/-- C7 amended: `Start` performs its first `performChecks` cycle
synchronously and only then appends the spawn of the background ticking
loop, so the snapshot read immediately after `Start` returns is the one
published by that first cycle; it contains exactly one entry per distinct
identity triple among the configured targets — an entry exists for a label
iff some configured target has that label, with no duplicate entries — and
when the configured targets' identity triples are pairwise distinct this is
exactly one entry per configured target. -/
theorem Start_first_cycle_snapshot (cfgs : List MysqlConfig) (body : List PStep)
    (h1 : BodySteps body 1) (h2 : List.Perm (writesOf body) (cfgs.map mcLabels)) :
    Start body = performChecks body ++ [PStep.spawnLoop] ∧
    (keysOf (startSnapshot body)).Nodup ∧
    (∀ l : Labels, l ∈ keysOf (startSnapshot body) ↔ ∃ cfg, cfg ∈ cfgs ∧ mcLabels cfg = l) ∧
    ((cfgs.map mcLabels).Nodup → (startSnapshot body).length = cfgs.length) := by
  have hsnap := startSnapshot_eq body 1 h1
  refine ⟨rfl, ?_, ?_, ?_⟩
  · rw [hsnap]
    exact keysOf_gaugeFold_nodup (writesOf body) 1 [] (by simp [keysOf])
  · intro l
    rw [hsnap, keysOf_gaugeFold, h2.mem_iff]
    simp [keysOf, List.mem_map]
  · intro hnd
    rw [hsnap]
    have hwnd : (writesOf body).Nodup := h2.nodup_iff.mpr hnd
    have hknd : (keysOf (gaugeFold [] (writesOf body) 1)).Nodup :=
      keysOf_gaugeFold_nodup (writesOf body) 1 [] (by simp [keysOf])
    have hmem : ∀ x, x ∈ keysOf (gaugeFold [] (writesOf body) 1) ↔ x ∈ writesOf body := by
      intro x
      rw [keysOf_gaugeFold]
      simp [keysOf]
    have hperm : List.Perm (keysOf (gaugeFold [] (writesOf body) 1)) (writesOf body) :=
      (List.perm_ext_iff_of_nodup hknd hwnd).mpr hmem
    have hl1 := hperm.length_eq
    have hl2 := h2.length_eq
    rw [keysOf, List.length_map] at hl1
    rw [List.length_map] at hl2
    omega

/-- Witness for the amended C7 at two distinct targets. -/
theorem Start_first_cycle_snapshot_witness :
    (keysOf (startSnapshot bodyXY)).Nodup ∧
    (startSnapshot bodyXY).length = List.length [cfgA, cfgB] := by
  have he : writesOf bodyXY = [cfgA, cfgB].map mcLabels := by decide
  have h2 : List.Perm (writesOf bodyXY) ([cfgA, cfgB].map mcLabels) := by
    rw [he]
  exact ⟨(Start_first_cycle_snapshot [cfgA, cfgB] bodyXY (by decide) h2).2.1,
    (Start_first_cycle_snapshot [cfgA, cfgB] bodyXY (by decide) h2).2.2.2 (by decide)⟩

/-!
## `NewMultiMySQLExporter` interval defaulting and `mysqlTLSConfig`
-/

/-- `time.Second` in nanoseconds (Go's `time.Duration` is an `int64`
count of nanoseconds). -/
def timeSecond : Int := 1000000000

/-- The `checkInterval` the exporter stores (src/pkg/metrics, lines
90-99): `NewMultiMySQLExporter` replaces a zero caller-supplied interval
by the default `30 * time.Second` and keeps anything else as given. -/
def newMultiMySQLExporterInterval (checkInterval : Int) : Int :=
  if checkInterval = 0 then 30 * timeSecond else checkInterval

/-- C9 (confirmed): constructing the exporter with a zero check interval
substitutes the default 30 seconds; any non-zero caller-supplied interval
is stored as given. -/
theorem newMultiMySQLExporterInterval_default :
    newMultiMySQLExporterInterval 0 = 30 * timeSecond ∧
    ∀ ci : Int, ci ≠ 0 → newMultiMySQLExporterInterval ci = ci := by
  constructor
  · rfl
  · intro ci hci
    rw [newMultiMySQLExporterInterval, if_neg hci]

/-- Witness for C9 at the concrete non-zero interval `5 * time.Second`. -/
theorem newMultiMySQLExporterInterval_default_witness :
    newMultiMySQLExporterInterval 0 = 30 * timeSecond ∧
    newMultiMySQLExporterInterval (5 * timeSecond) = 5 * timeSecond :=
  ⟨newMultiMySQLExporterInterval_default.1,
    newMultiMySQLExporterInterval_default.2 (5 * timeSecond) (by norm_num [timeSecond])⟩

/-- The fields of `crypto/tls.Config` that decide verification behaviour,
as configured by `pkg/util.mysqlTLSConfig`.  The `RootCAs` pool is
modelled as the list of PEM blobs appended to it (`none` = field unset). -/
structure TLSConfig where
  insecureSkipVerify : Bool
  rootCAs : Option (List String)
deriving Repr, DecidableEq

/-- `pkg/util.mysqlTLSConfig` (src/unnamed/part_002, lines 89-108): builds
`&tls.Config{InsecureSkipVerify: true}`, reads the CA file (`os.Exit(1)`,
modelled as `none`, if it cannot be read), appends the PEM to a fresh cert
pool (`os.Exit(1)` if it does not parse) and sets `RootCAs` to that pool.
`reader` is the file-reading capability (the source's `FileReader`) and
`appendOK` models whether x509 `AppendCertsFromPEM` accepts the blob. -/
def mysqlTLSConfig (capath : String) (reader : String → Option String)
    (appendOK : String → Bool) : Option TLSConfig :=
  match reader capath with
  | none => none
  | some pem =>
    if appendOK pem then some { insecureSkipVerify := true, rootCAs := some [pem] }
    else none

/-- Modelled from the spec: the TLS handshake itself is performed by the
external TLS library (the spec's §6 interface boundary for TLS material),
not by code under src/.  Per that library's documented contract, a config
with `InsecureSkipVerify` set accepts any certificate presented by the
server — it verifies neither the certificate chain (so `RootCAs` is
ignored) nor the host name; with it unset, the chain is verified against
`RootCAs` and the host name is checked. -/
def chainVerifiedAgainstRootCAs (c : TLSConfig) : Bool := !c.insecureSkipVerify

/-- Modelled from the spec: host-name verification under the same
documented contract as `chainVerifiedAgainstRootCAs`. -/
def hostnameVerified (c : TLSConfig) : Bool := !c.insecureSkipVerify

/-- A CA-file reader that succeeds with a fixed PEM blob. -/
def caReader : String → Option String := fun _ => some "PEM"

/-- A PEM parser that accepts its input. -/
def pemOK : String → Bool := fun _ => true

/-- C6 (code bug, evaluated at the failing input): the configuration built
by `mysqlTLSConfig` for a TLS-enabled target does disable host-name
verification and does install the CA file's trust bundle as `RootCAs` —
but because it also sets `InsecureSkipVerify`, the server's certificate
chain is NOT validated against that bundle: the pool the code fatally
insists on loading is ignored by the handshake. -/
theorem mysqlTLSConfig_chain_not_validated :
    mysqlTLSConfig "/etc/ssl/certs/ca-certificates.crt" caReader pemOK =
      some { insecureSkipVerify := true, rootCAs := some ["PEM"] } ∧
    hostnameVerified { insecureSkipVerify := true, rootCAs := some ["PEM"] } = false ∧
    chainVerifiedAgainstRootCAs { insecureSkipVerify := true, rootCAs := some ["PEM"] } = false ∧
    ({ insecureSkipVerify := true, rootCAs := some ["PEM"] } : TLSConfig).rootCAs ≠ none := by
  decide
